import Mathlib

/-!
Verification of the TraceHub server core against its specification.

The Python source under `src/tracehub/` is embedded shallowly:

* `db.py` — `insert_trace` over an ordered list of stored rows
  (insertion order models the SQLite internal sequence id);
* `adaptive.py` — the HOT/WARM/COLD state machine (`mark_hot`,
  `get_state`, `cooldown_tick`, `tracing_disable`) over an association
  list keyed by correlation id, plus the global `config_etag`;
* `streaming.py` — `subscribe` / `unsubscribe` / `notify_subscribers`
  over a subscriber map and an activity-timestamp map; queue object
  identity is modelled by a numeric `qid`, queue contents by a list
  bounded by the source capacity 100;
* `endpoints.py` — the `/recent` handler's rate-limit path, the single
  and batch ingest handlers, and the SSE stream generator, whose
  suspension points (queue item, 1s poll timeout, fault, disconnect)
  are driven by an explicit event script.

Times are integers (seconds); the Python floats only ever enter the
claims through order comparisons, which the integer embedding preserves.
-/

namespace TraceHub

/-- One trace event as submitted by a producer (`models.py`, `TraceEntry`). -/
structure TraceEntry where
  source_id : String
  correlation_id : String
  timestamp : Int
  suffix : String
  direction : String
  operation : String
  endpoint : String
  data : Option String
  hostname : String
  raw_line : Option String
deriving DecidableEq, Repr

/-- One stored row of the `traces` table (`db.py`, `init_db`). The row's
position in the store list models the autoincrement id. -/
structure Row where
  source_id : String
  correlation_id : String
  timestamp : Int
  suffix : String
  direction : String
  operation : String
  endpoint : String
  data : Option String
  hostname : String
  raw_line : Option String
  created_at : Int
deriving DecidableEq, Repr

/-- Association-list lookup, first matching key (Python dict `get`). -/
def alookup {α : Type} (k : String) : List (String × α) → Option α
  | [] => none
  | (k2, v) :: rest => if k2 == k then some v else alookup k rest

/-- Association-list assignment: replace the first binding of the key,
append when absent (Python dict item assignment). -/
def aset {α : Type} (k : String) (v : α) : List (String × α) → List (String × α)
  | [] => [(k, v)]
  | (k2, v2) :: rest => if k2 == k then (k, v) :: rest else (k2, v2) :: aset k v rest

/-- Association-list deletion of the first binding (Python dict `del` / `pop`). -/
def aerase {α : Type} (k : String) : List (String × α) → List (String × α)
  | [] => []
  | (k2, v) :: rest => if k2 == k then rest else (k2, v) :: aerase k rest

/-- The soft-dedup match used by the UPDATE in `insert_trace`:
same producer, correlation, endpoint and direction, stored within the
last 300 seconds. -/
def softMatch (t : TraceEntry) (now : Int) (r : Row) : Bool :=
  r.source_id == t.source_id && r.correlation_id == t.correlation_id &&
    r.endpoint == t.endpoint && r.direction == t.direction &&
    decide (r.created_at > now - 300)

/-- The hard-dedup identity triple enforced by
`UNIQUE(correlation_id, timestamp, suffix)`. -/
def matchesTriple (t : TraceEntry) (r : Row) : Bool :=
  r.correlation_id == t.correlation_id && r.timestamp == t.timestamp &&
    r.suffix == t.suffix

/-- The row created by the INSERT in `insert_trace` (`created_at` defaults
to the current storage time). -/
def mkRow (t : TraceEntry) (now : Int) : Row :=
  { source_id := t.source_id, correlation_id := t.correlation_id,
    timestamp := t.timestamp, suffix := t.suffix, direction := t.direction,
    operation := t.operation, endpoint := t.endpoint, data := t.data,
    hostname := t.hostname, raw_line := t.raw_line, created_at := now }

/-- Outcome of `insert_trace`: the new table contents, the returned
boolean, and the increment applied to the `ingest_deduped` stat. -/
structure InsertResult where
  db : List Row
  inserted : Bool
  dedupInc : Nat
deriving Repr

/-- Embedding of `db.insert_trace`: first the soft-duplicate UPDATE
(refreshing `timestamp` and `created_at` of every matching fresh row);
if any row was updated, report a dedup and return `false`. Otherwise an
`INSERT OR IGNORE` guarded by the identity-triple uniqueness constraint;
the returned boolean is `total_changes > 0` for the connection, which on
this path is true exactly when the row was genuinely inserted. -/
def insert_trace (now : Int) (t : TraceEntry) (db : List Row) : InsertResult :=
  let rowcount := (db.filter (softMatch t now)).length
  if rowcount > 0 then
    { db := db.map (fun r =>
        if softMatch t now r then
          { r with timestamp := t.timestamp, created_at := now }
        else r),
      inserted := false, dedupInc := 1 }
  else if db.any (matchesTriple t) then
    { db := db, inserted := false, dedupInc := 0 }
  else
    { db := db ++ [mkRow t now], inserted := true, dedupInc := 0 }

/-- Default HOT TTL of the adaptive controller (`adaptive.py`,
`ADAPTIVE_HOT_TTL`, default 300 seconds). -/
def ADAPTIVE_HOT_TTL : Int := 300

/-- Default WARM TTL of the adaptive controller (`adaptive.py`,
`ADAPTIVE_WARM_TTL`, default 1500 seconds). -/
def ADAPTIVE_WARM_TTL : Int := 1500

/-- The sampling regime recorded for a correlation id. `cold` is never
stored: absence from the state map means COLD. -/
inductive AdaptState where
  | hot
  | warm
  | cold
deriving DecidableEq, Repr

/-- One value of `_adaptive_state` (`adaptive.py`): current regime,
absolute expiry time, and last query time. -/
structure CorrState where
  state : AdaptState
  expires_at : Int
  queried_at : Int
deriving DecidableEq, Repr

/-- The adaptive controller's process-wide state: `_adaptive_state`
(keyed by correlation id) and `_config_etag`. -/
structure Adaptive where
  states : List (String × CorrState)
  etag : Nat
deriving DecidableEq, Repr

/-- Embedding of `adaptive.get_state`: the stored regime, or `cold`
when the id is absent. -/
def get_state (s : Adaptive) (corr_id : String) : AdaptState :=
  match alookup corr_id s.states with
  | none => AdaptState.cold
  | some e => e.state

/-- Embedding of `adaptive.mark_hot`: record the previous state, store a
fresh HOT entry with `expires_at = now + hot_ttl`, bump the etag. -/
def mark_hot (now : Int) (corr_id : String) (s : Adaptive) : AdaptState × Adaptive :=
  let prev := get_state s corr_id
  (prev,
    { states := aset corr_id
        { state := AdaptState.hot, expires_at := now + ADAPTIVE_HOT_TTL,
          queried_at := now } s.states,
      etag := s.etag + 1 })

/-- One entry's treatment by `cooldown_tick`: unexpired entries are kept,
an expired HOT entry becomes WARM with `expires_at = now + warm_ttl`, an
expired WARM entry is removed; the boolean records whether the entry
contributed to `changed`. -/
def tickEntry (now : Int) (p : String × CorrState) : Option (String × CorrState) × Bool :=
  if p.2.expires_at > now then (some p, false)
  else
    match p.2.state with
    | AdaptState.hot =>
        (some (p.1, { state := AdaptState.warm,
                      expires_at := now + ADAPTIVE_WARM_TTL,
                      queried_at := p.2.queried_at }), true)
    | AdaptState.warm => (none, true)
    | AdaptState.cold => (some p, false)

/-- Embedding of `adaptive.cooldown_tick`: apply `tickEntry` to every
tracked id, drop the removed ones, and bump the etag exactly once when
any entry changed. -/
def cooldown_tick (now : Int) (s : Adaptive) : Adaptive :=
  let stepped := s.states.map (tickEntry now)
  { states := stepped.filterMap Prod.fst,
    etag := if stepped.any Prod.snd then s.etag + 1 else s.etag }

/-- Embedding of the `tracing_disable` endpoint's state effect: delete
the id when tracked and bump the etag, otherwise leave everything as is. -/
def tracing_disable (corr_id : String) (s : Adaptive) : Adaptive :=
  if (alookup corr_id s.states).isSome then
    { states := aerase corr_id s.states, etag := s.etag + 1 }
  else s

/-- A sequence of cooldown ticks at the given times (the maintenance
loop's repeated `cooldown_tick()` calls). -/
def applyTicks (ts : List Int) (s : Adaptive) : Adaptive :=
  ts.foldl (fun acc t => cooldown_tick t acc) s

/-- A subscriber's delivery queue (`asyncio.Queue(maxsize=100)`): the
`qid` models the Python object's identity, `items` its buffered
contents. -/
structure Queue where
  qid : Nat
  items : List TraceEntry
deriving DecidableEq, Repr

/-- The maximum queue size passed to `asyncio.Queue` in `subscribe`. -/
def QUEUE_MAXSIZE : Nat := 100

/-- The broadcast layer's process-wide state (`config.py`):
`_subscribers` maps a correlation id to its registered queues,
`_subscriber_timestamps` to its last activity time. -/
structure Broadcast where
  subscribers : List (String × List Queue)
  timestamps : List (String × Int)
deriving DecidableEq, Repr

/-- Remove the first queue with the given identity from a bucket
(Python `list.remove`, which compares by identity for queue objects;
absence is the swallowed `ValueError`). -/
def removeFirstQ (qid : Nat) : List Queue → List Queue
  | [] => []
  | q :: rest => if q.qid == qid then rest else q :: removeFirstQ qid rest

/-- Embedding of `streaming.subscribe`: create the bucket if missing,
append a fresh empty queue (identity `qid` chosen by the runtime), and
refresh the id's activity timestamp. -/
def subscribe (now : Int) (correlation_id : String) (qid : Nat) (b : Broadcast) :
    Queue × Broadcast :=
  let q : Queue := { qid := qid, items := [] }
  let subs0 :=
    if (alookup correlation_id b.subscribers).isSome then b.subscribers
    else aset correlation_id [] b.subscribers
  let bucket := (alookup correlation_id subs0).getD []
  (q, { subscribers := aset correlation_id (bucket ++ [q]) subs0,
        timestamps := aset correlation_id now b.timestamps })

/-- Embedding of `streaming.unsubscribe`: remove the queue from its
bucket; when the bucket empties, delete the bucket. The activity
timestamp is not touched. -/
def unsubscribe (correlation_id : String) (qid : Nat) (b : Broadcast) : Broadcast :=
  match alookup correlation_id b.subscribers with
  | none => b
  | some qs =>
      if qs.any (fun q => q.qid == qid) then
        let qs2 := removeFirstQ qid qs
        if qs2.isEmpty then
          { b with subscribers := aerase correlation_id b.subscribers }
        else
          { b with subscribers := aset correlation_id qs2 b.subscribers }
      else b

/-- Embedding of `streaming.notify_subscribers`: non-blocking enqueue to
every queue in the entry's bucket (a full queue raises `QueueFull` and is
collected as dead), then each dead queue is removed from the bucket; if
the bucket empties, both the bucket and the activity timestamp are
dropped. -/
def notify_subscribers (trace : TraceEntry) (b : Broadcast) : Broadcast :=
  match alookup trace.correlation_id b.subscribers with
  | none => b
  | some qs =>
      let qs1 := qs.map (fun q =>
        if q.items.length < QUEUE_MAXSIZE then
          { q with items := q.items ++ [trace] }
        else q)
      let dead := qs.filter (fun q => !(decide (q.items.length < QUEUE_MAXSIZE)))
      let qs2 := dead.foldl (fun acc q => removeFirstQ q.qid acc) qs1
      if qs2.isEmpty then
        { subscribers := aerase trace.correlation_id b.subscribers,
          timestamps := aerase trace.correlation_id b.timestamps }
      else
        { b with subscribers := aset trace.correlation_id qs2 b.subscribers }

/-- Look up one registered queue by correlation id and queue identity. -/
def findQueue (b : Broadcast) (correlation_id : String) (qid : Nat) : Option Queue :=
  match alookup correlation_id b.subscribers with
  | none => none
  | some qs => qs.find? (fun q => q.qid == qid)

/-- The state read and written by the `/recent` handler
(`endpoints.get_recent_traces`): the global request window
`_recent_rate_window`, the `recent_requests` counter of `_stats`, and
the stored rows. -/
structure RecentState where
  window : List Int
  recent_requests : Nat
  rows : List Row
deriving DecidableEq, Repr

/-- The row filter of the `/recent` SELECT: optional source-id prefix
and exclusion of the sentinel correlation id. -/
def recentCond (source : Option String) (r : Row) : Bool :=
  (match source with
   | some p => p.isPrefixOf r.source_id
   | none => true) && r.correlation_id != "-"

/-- Embedding of `endpoints.get_recent_traces`: append the call time to
the rate window and bump the request counter, then count window entries
newer than 60 seconds; more than 30 raises the 429 (returning `none`)
with the window and counter already mutated. An accepted call selects
the most recent `limit` rows by descending internal id and reverses them
to oldest-first. -/
def get_recent_traces (now : Int) (limit : Nat) (source : Option String)
    (s : RecentState) : Option (List Row) × RecentState :=
  let window := s.window ++ [now]
  let s1 : RecentState :=
    { window := window, recent_requests := s.recent_requests + 1, rows := s.rows }
  let recent_count := window.countP (fun t => decide (now - t < 60))
  if recent_count > 30 then (none, s1)
  else
    (some ((s.rows.filter (recentCond source)).reverse.take limit).reverse, s1)

/-- A sequence of `/recent` calls at the given times (responses
discarded). -/
def runRecent (ts : List Int) (s : RecentState) : RecentState :=
  ts.foldl (fun acc t => (get_recent_traces t 200 none acc).2) s

/-- The cumulative counters of `_stats` touched by the ingest path. -/
structure Stats where
  ingest_total : Nat
  ingest_duplicates : Nat
  ingest_deduped : Nat
deriving DecidableEq, Repr

/-- The server state visible to the ingest handlers: stored rows, the
cumulative stats, the per-source windows and lifetime totals, and the
broadcast layer. -/
structure Server where
  rows : List Row
  stats : Stats
  source_ingest_window : List (String × List Int)
  source_ingest_totals : List (String × Nat)
  broadcast : Broadcast
deriving Repr

/-- Embedding of `endpoints.ingest_single_trace`: one `insert_trace`,
fan-out on success; no per-source bookkeeping and no batch counters. -/
def ingest_single_trace (now : Int) (t : TraceEntry) (s : Server) : Server × Bool :=
  let r := insert_trace now t s.rows
  let b1 := if r.inserted then notify_subscribers t s.broadcast else s.broadcast
  ({ s with
     rows := r.db
     stats := { s.stats with ingest_deduped := s.stats.ingest_deduped + r.dedupInc }
     broadcast := b1 },
   r.inserted)

/-- The per-trace body of the batch loop in `endpoints.ingest_traces`:
insert, fan-out on success, then record the call time in the source's
ingest window and bump the source's lifetime total. -/
def ingestStep (now : Int) (acc : Server × Nat) (t : TraceEntry) : Server × Nat :=
  let s := acc.1
  let r := insert_trace now t s.rows
  let b1 := if r.inserted then notify_subscribers t s.broadcast else s.broadcast
  let sid := t.source_id
  ({ s with
     rows := r.db
     stats := { s.stats with ingest_deduped := s.stats.ingest_deduped + r.dedupInc }
     source_ingest_window :=
       aset sid ((alookup sid s.source_ingest_window).getD [] ++ [now])
         s.source_ingest_window
     source_ingest_totals :=
       aset sid ((alookup sid s.source_ingest_totals).getD 0 + 1)
         s.source_ingest_totals
     broadcast := b1 },
   acc.2 + if r.inserted then 1 else 0)

/-- Embedding of `endpoints.ingest_traces`: run the per-trace loop, then
add the inserted count to `ingest_total` and the remainder of the batch
to `ingest_duplicates`. -/
def ingest_traces (now : Int) (traces : List TraceEntry) (s : Server) : Server × Nat :=
  let res := traces.foldl (ingestStep now) (s, 0)
  let s1 := res.1
  ({ s1 with stats :=
      { s1.stats with
        ingest_total := s1.stats.ingest_total + res.2
        ingest_duplicates := s1.stats.ingest_duplicates + (traces.length - res.2) } },
   res.2)

/-- An event emitted by the SSE generator of `stream_traces`. -/
inductive StreamMsg where
  | data (t : TraceEntry)
  | keepalive
  | terminal
deriving DecidableEq, Repr

/-- One resolution of the generator's inner wait: a queue item arrives,
the 1-second poll times out (keepalive), the handler raises, or the
client disconnects (closing the generator at the yield point). -/
inductive StreamEvent where
  | item (t : TraceEntry)
  | poll_timeout
  | fault
  | disconnect
deriving DecidableEq, Repr

/-- The generator's polling loop: items and poll timeouts produce
events until the deadline (end of the script, second component `true`);
a fault or disconnect aborts the loop (second component `false`). -/
def streamLoop : List StreamEvent → List StreamMsg × Bool
  | [] => ([], true)
  | StreamEvent.item t :: rest =>
      let r := streamLoop rest
      (StreamMsg.data t :: r.1, r.2)
  | StreamEvent.poll_timeout :: rest =>
      let r := streamLoop rest
      (StreamMsg.keepalive :: r.1, r.2)
  | StreamEvent.fault :: _ => ([], false)
  | StreamEvent.disconnect :: _ => ([], false)

/-- Embedding of the `endpoints.stream_traces` event generator: replay
the stored history, subscribe, run the polling loop, unsubscribe in the
`finally` block on every exit, and yield the terminal marker only after
a loop that reached its deadline (a fault or disconnect propagates past
the `finally` before the terminal yield). Returns the emitted messages,
the final broadcast state, and whether the exit was clean. -/
def stream_traces (existing : List TraceEntry) (correlation_id : String)
    (qid : Nat) (now : Int) (events : List StreamEvent) (b : Broadcast) :
    List StreamMsg × Broadcast × Bool :=
  let replay := existing.map StreamMsg.data
  let b1 := (subscribe now correlation_id qid b).2
  let r := streamLoop events
  let b2 := unsubscribe correlation_id qid b1
  (replay ++ r.1 ++ (if r.2 then [StreamMsg.terminal] else []), b2, r.2)

/-! ## Claim C1 — hard-duplicate idempotence of `insert_trace` -/

/-- C1: submitting the same `TraceEntry` (identical `correlation_id`,
`timestamp`, `suffix`) twice through `insert_trace` leaves exactly one
stored row for that identity triple and the second submission returns
`inserted = false`, for any pair of submission times. Within the
300-second freshness window the second submission takes the soft-update
path; outside it, the uniqueness constraint swallows the insert. -/
theorem insert_trace_twice_single_row (e : TraceEntry) (n1 n2 : Int) :
    (insert_trace n2 e (insert_trace n1 e []).db).inserted = false ∧
    ((insert_trace n2 e (insert_trace n1 e []).db).db.countP (matchesTriple e)) = 1 := by
  have h1 : (insert_trace n1 e []).db = [mkRow e n1] := by
    simp [insert_trace]
  rw [h1]
  by_cases h : n1 > n2 - 300
  · simp [insert_trace, softMatch, mkRow, matchesTriple, h, List.countP_cons, List.countP_nil]
  · simp [insert_trace, softMatch, mkRow, matchesTriple, h, List.countP_cons, List.countP_nil]

/-! ## Claim C2 — soft dedup collapses to one row -/

/-- C2 counterexample: two entries with the same
(source, correlation, endpoint, direction) but different timestamps,
submitted at the same instant (well within the 5-minute window), collapse
to one row carrying the SECOND submission's timestamp 1000, not the later
of the two timestamps (2000). -/
theorem soft_dedup_later_timestamp_cex :
    ((insert_trace 0
        ⟨"WK", "c1", 1000, "b", "->", "RPC", "/foo", none, "h", none⟩
        (insert_trace 0
          ⟨"WK", "c1", 2000, "a", "->", "RPC", "/foo", none, "h", none⟩
          []).db).db.map Row.timestamp = [1000]) ∧
    max (2000 : Int) 1000 = 2000 ∧ (1000 : Int) ≠ 2000 := by
  refine ⟨by rfl, by decide, by decide⟩

/-- C2 (amended): two entries with the same
(source, correlation, endpoint, direction) but different timestamps,
submitted within 5 minutes of each other, collapse to a single row
carrying the SECOND-submitted entry's timestamp (which is the later
timestamp only when arrival order matches event order); the second
submission returns `inserted = false` and increments the dedup counter. -/
theorem soft_dedup_second_timestamp (e1 e2 : TraceEntry) (n1 n2 : Int)
    (hsrc : e1.source_id = e2.source_id)
    (hcor : e1.correlation_id = e2.correlation_id)
    (hend : e1.endpoint = e2.endpoint)
    (hdir : e1.direction = e2.direction)
    (hts : e1.timestamp ≠ e2.timestamp)
    (h12 : n1 ≤ n2) (hwin : n2 - n1 < 300) :
    (insert_trace n2 e2 (insert_trace n1 e1 []).db).inserted = false ∧
    (insert_trace n2 e2 (insert_trace n1 e1 []).db).dedupInc = 1 ∧
    (insert_trace n2 e2 (insert_trace n1 e1 []).db).db.map Row.timestamp
      = [e2.timestamp] := by
  have h1 : (insert_trace n1 e1 []).db = [mkRow e1 n1] := by
    simp [insert_trace]
  have hfresh : n1 > n2 - 300 := by omega
  rw [h1]
  simp [insert_trace, softMatch, mkRow, hsrc, hcor, hend, hdir, hfresh]

/-- C2 witness: the amended statement evaluated at two concrete entries
submitted 100 seconds apart. -/
theorem soft_dedup_second_timestamp_witness :
    (insert_trace 100
        ⟨"WK", "c1", 1000, "b", "->", "RPC", "/foo", none, "h", none⟩
        (insert_trace 0
          ⟨"WK", "c1", 2000, "a", "->", "RPC", "/foo", none, "h", none⟩
          []).db).inserted = false ∧
    (insert_trace 100
        ⟨"WK", "c1", 1000, "b", "->", "RPC", "/foo", none, "h", none⟩
        (insert_trace 0
          ⟨"WK", "c1", 2000, "a", "->", "RPC", "/foo", none, "h", none⟩
          []).db).dedupInc = 1 ∧
    (insert_trace 100
        ⟨"WK", "c1", 1000, "b", "->", "RPC", "/foo", none, "h", none⟩
        (insert_trace 0
          ⟨"WK", "c1", 2000, "a", "->", "RPC", "/foo", none, "h", none⟩
          []).db).db.map Row.timestamp = [1000] :=
  soft_dedup_second_timestamp
    ⟨"WK", "c1", 2000, "a", "->", "RPC", "/foo", none, "h", none⟩
    ⟨"WK", "c1", 1000, "b", "->", "RPC", "/foo", none, "h", none⟩
    0 100 rfl rfl rfl rfl (by decide) (by decide) (by decide)

/-! ## Claim C3 — HOT/WARM/COLD lifecycle under uninterrupted ticks -/

/-- A cooldown tick before an entry's expiry leaves a single-id state
unchanged (no transition, no etag bump). -/
theorem cooldown_tick_keep (t : Int) (id : String) (c : CorrState) (n : Nat)
    (h : c.expires_at > t) :
    cooldown_tick t ⟨[(id, c)], n⟩ = ⟨[(id, c)], n⟩ := by
  simp [cooldown_tick, tickEntry, h]

/-- Any sequence of cooldown ticks all before an entry's expiry leaves a
single-id state unchanged. -/
theorem applyTicks_keep (id : String) (c : CorrState) (n : Nat) :
    ∀ ts : List Int, (∀ t ∈ ts, t < c.expires_at) →
      applyTicks ts ⟨[(id, c)], n⟩ = ⟨[(id, c)], n⟩ := by
  intro ts
  induction ts with
  | nil => intro _; rfl
  | cons t rest ih =>
      intro h
      have h1 : c.expires_at > t := h t (by simp)
      have hstep : applyTicks (t :: rest) (⟨[(id, c)], n⟩ : Adaptive)
          = applyTicks rest (cooldown_tick t ⟨[(id, c)], n⟩) := by
        simp [applyTicks]
      rw [hstep, cooldown_tick_keep t id c n h1]
      exact ih (fun u hu => h u (by simp [hu]))

/-- C3: with the default TTLs (HOT 300s, WARM 1500s) and no intervening
query, an id marked HOT at `t0` is still HOT after any ticks strictly
before `t0 + 300`; the first tick at `t1 ≥ t0 + 300` turns it WARM with a
fresh TTL expiring at `t1 + 1500` (so, for a tick landing exactly at
`t0 + 300`, WARM persists through `t0 + 1799`); it stays WARM under any
further ticks strictly before `t1 + 1500`; and a tick at
`t2 ≥ t1 + 1500` (that is, at or after `t0 + 1800` seconds of
uninterrupted ticking) removes the id from the state map entirely. -/
theorem adaptive_hot_warm_cold_lifecycle (t0 : Int) (id : String) (e0 : Nat)
    (ts1 : List Int) (h1 : ∀ t ∈ ts1, t < t0 + ADAPTIVE_HOT_TTL)
    (t1 : Int) (h2 : t0 + ADAPTIVE_HOT_TTL ≤ t1)
    (ts2 : List Int) (h3 : ∀ t ∈ ts2, t < t1 + ADAPTIVE_WARM_TTL)
    (t2 : Int) (h4 : t1 + ADAPTIVE_WARM_TTL ≤ t2) :
    get_state (applyTicks ts1 (mark_hot t0 id ⟨[], e0⟩).2) id = AdaptState.hot ∧
    alookup id (cooldown_tick t1
        (applyTicks ts1 (mark_hot t0 id ⟨[], e0⟩).2)).states
      = some ⟨AdaptState.warm, t1 + ADAPTIVE_WARM_TTL, t0⟩ ∧
    get_state (applyTicks ts2 (cooldown_tick t1
        (applyTicks ts1 (mark_hot t0 id ⟨[], e0⟩).2))) id = AdaptState.warm ∧
    alookup id (cooldown_tick t2 (applyTicks ts2 (cooldown_tick t1
        (applyTicks ts1 (mark_hot t0 id ⟨[], e0⟩).2)))).states = none := by
  have hm : (mark_hot t0 id ⟨[], e0⟩).2
      = ⟨[(id, ⟨AdaptState.hot, t0 + ADAPTIVE_HOT_TTL, t0⟩)], e0 + 1⟩ := by
    simp [mark_hot, aset]
  have hA : applyTicks ts1 (mark_hot t0 id ⟨[], e0⟩).2
      = ⟨[(id, ⟨AdaptState.hot, t0 + ADAPTIVE_HOT_TTL, t0⟩)], e0 + 1⟩ := by
    rw [hm]
    exact applyTicks_keep id _ _ ts1 h1
  have hB : cooldown_tick t1 (applyTicks ts1 (mark_hot t0 id ⟨[], e0⟩).2)
      = ⟨[(id, ⟨AdaptState.warm, t1 + ADAPTIVE_WARM_TTL, t0⟩)], e0 + 2⟩ := by
    rw [hA]
    have hexp : ¬ ((t0 + ADAPTIVE_HOT_TTL : Int) > t1) := by omega
    simp [cooldown_tick, tickEntry, hexp]
  have hC : applyTicks ts2 (cooldown_tick t1
      (applyTicks ts1 (mark_hot t0 id ⟨[], e0⟩).2))
      = ⟨[(id, ⟨AdaptState.warm, t1 + ADAPTIVE_WARM_TTL, t0⟩)], e0 + 2⟩ := by
    rw [hB]
    exact applyTicks_keep id _ _ ts2 h3
  have hD : cooldown_tick t2 (applyTicks ts2 (cooldown_tick t1
      (applyTicks ts1 (mark_hot t0 id ⟨[], e0⟩).2)))
      = ⟨[], e0 + 3⟩ := by
    rw [hC]
    have hexp : ¬ ((t1 + ADAPTIVE_WARM_TTL : Int) > t2) := by omega
    simp [cooldown_tick, tickEntry, hexp]
  refine ⟨?_, ?_, ?_, ?_⟩
  · rw [hA]; simp [get_state, alookup]
  · rw [hB]; simp [alookup]
  · rw [hC]; simp [get_state, alookup]
  · rw [hD]; simp [alookup]

/-- C3 witness: the lifecycle evaluated at `t0 = 0` with ticks at 100 and
299 (still HOT), the WARM transition at exactly 300, ticks at 400 and
1799 (still WARM), and removal at 1800. -/
theorem adaptive_hot_warm_cold_lifecycle_witness :
    get_state (applyTicks [100, 299] (mark_hot 0 "c1" ⟨[], 0⟩).2) "c1"
      = AdaptState.hot ∧
    alookup "c1" (cooldown_tick 300
        (applyTicks [100, 299] (mark_hot 0 "c1" ⟨[], 0⟩).2)).states
      = some ⟨AdaptState.warm, 1800, 0⟩ ∧
    get_state (applyTicks [400, 1799] (cooldown_tick 300
        (applyTicks [100, 299] (mark_hot 0 "c1" ⟨[], 0⟩).2))) "c1"
      = AdaptState.warm ∧
    alookup "c1" (cooldown_tick 1800 (applyTicks [400, 1799] (cooldown_tick 300
        (applyTicks [100, 299] (mark_hot 0 "c1" ⟨[], 0⟩).2)))).states = none :=
  adaptive_hot_warm_cold_lifecycle 0 "c1" 0 [100, 299] (by decide) 300 (by decide)
    [400, 1799] (by decide) 1800 (by decide)

/-! ## Claim C4 — etag monotonicity and coalescing -/

/-- An entry contributes to a tick's `changed` flag exactly when it has
expired and is HOT or WARM. -/
theorem tickEntry_snd (t : Int) (p : String × CorrState) :
    (tickEntry t p).2 = true ↔
      (p.2.expires_at ≤ t ∧
        (p.2.state = AdaptState.hot ∨ p.2.state = AdaptState.warm)) := by
  obtain ⟨k, st, ea, qa⟩ := p
  by_cases h : ea > t
  · simp only [tickEntry, h, if_true]
    simp
    intro hle
    omega
  · cases st <;> simp [tickEntry, h] <;> omega

/-- C4: the config etag strictly increases (by exactly one, regardless of
how many ids transition) across a `cooldown_tick` that changes at least
one id's state; a tick that changes nothing leaves the etag unchanged; an
explicit enable (`mark_hot`) always bumps the etag by one; and an
explicit disable of a tracked id bumps the etag by one. -/
theorem config_etag_monotonic (t now : Int) (s : Adaptive) (id : String) :
    ((∃ p ∈ s.states, p.2.expires_at ≤ t ∧
        (p.2.state = AdaptState.hot ∨ p.2.state = AdaptState.warm)) →
      (cooldown_tick t s).etag = s.etag + 1) ∧
    ((∀ p ∈ s.states, t < p.2.expires_at ∨ p.2.state = AdaptState.cold) →
      (cooldown_tick t s).etag = s.etag) ∧
    (mark_hot now id s).2.etag = s.etag + 1 ∧
    ((alookup id s.states).isSome = true →
      (tracing_disable id s).etag = s.etag + 1) := by
  refine ⟨?_, ?_, ?_, ?_⟩
  · rintro ⟨p, hp, hcond⟩
    have hany : (s.states.map (tickEntry t)).any Prod.snd = true := by
      simp only [List.any_eq_true, List.mem_map]
      exact ⟨tickEntry t p, ⟨p, hp, rfl⟩, (tickEntry_snd t p).2 hcond⟩
    simp [cooldown_tick, hany]
  · intro h
    have hany : (s.states.map (tickEntry t)).any Prod.snd = false := by
      simp only [List.any_eq_false, List.mem_map]
      rintro y ⟨p, hp, rfl⟩
      intro hx
      obtain ⟨hle, hst⟩ := (tickEntry_snd t p).1 hx
      rcases h p hp with h1 | h1
      · omega
      · rcases hst with h2 | h2 <;> rw [h1] at h2 <;> exact absurd h2 (by simp)
    simp [cooldown_tick, hany]
  · simp [mark_hot]
  · intro h
    simp [tracing_disable, h]

/-- C4 witness: a tick at time 10 over two expired ids (one HOT, one
WARM) bumps the etag from 5 to 6 exactly once; a tick at time 5 over the
same unexpired ids leaves it at 5; an enable and a disable of a tracked
id each bump it once. -/
theorem config_etag_monotonic_witness :
    (cooldown_tick 10
      ⟨[("a", ⟨AdaptState.hot, 10, 0⟩), ("b", ⟨AdaptState.warm, 10, 0⟩)],
        5⟩).etag = 6 ∧
    (cooldown_tick 5
      ⟨[("a", ⟨AdaptState.hot, 10, 0⟩), ("b", ⟨AdaptState.warm, 10, 0⟩)],
        5⟩).etag = 5 ∧
    (mark_hot 0 "c"
      ⟨[("a", ⟨AdaptState.hot, 10, 0⟩), ("b", ⟨AdaptState.warm, 10, 0⟩)],
        5⟩).2.etag = 6 ∧
    (tracing_disable "a"
      ⟨[("a", ⟨AdaptState.hot, 10, 0⟩), ("b", ⟨AdaptState.warm, 10, 0⟩)],
        5⟩).etag = 6 :=
  ⟨(config_etag_monotonic 10 0
      ⟨[("a", ⟨AdaptState.hot, 10, 0⟩), ("b", ⟨AdaptState.warm, 10, 0⟩)], 5⟩
      "a").1 ⟨("a", ⟨AdaptState.hot, 10, 0⟩), by decide, by decide, by decide⟩,
   (config_etag_monotonic 5 0
      ⟨[("a", ⟨AdaptState.hot, 10, 0⟩), ("b", ⟨AdaptState.warm, 10, 0⟩)], 5⟩
      "a").2.1 (by decide),
   (config_etag_monotonic 10 0
      ⟨[("a", ⟨AdaptState.hot, 10, 0⟩), ("b", ⟨AdaptState.warm, 10, 0⟩)], 5⟩
      "c").2.2.1,
   (config_etag_monotonic 10 0
      ⟨[("a", ⟨AdaptState.hot, 10, 0⟩), ("b", ⟨AdaptState.warm, 10, 0⟩)], 5⟩
      "a").2.2.2 (by decide)⟩

/-! ## Claim C5 — unsubscribe of the last listener -/

/-- Lookup of an absent key yields nothing. -/
theorem alookup_eq_none {α : Type} (k : String) (m : List (String × α))
    (h : k ∉ m.map Prod.fst) : alookup k m = none := by
  induction m with
  | nil => rfl
  | cons p rest ih =>
      have h1 : ¬ (p.1 = k) := fun he => h (by simp [← he])
      have h2 : k ∉ rest.map Prod.fst := fun hm => h (by simp [hm])
      have hne : (p.1 == k) = false := by simp [h1]
      simp [alookup, hne]
      exact ih h2

/-- With distinct keys, erasing a key makes its lookup fail. -/
theorem alookup_aerase_self {α : Type} (k : String) (m : List (String × α))
    (h : (m.map Prod.fst).Nodup) : alookup k (aerase k m) = none := by
  induction m with
  | nil => rfl
  | cons p rest ih =>
      rw [List.map_cons] at h
      obtain ⟨hn1, hn2⟩ := List.nodup_cons.1 h
      by_cases hk : (p.1 == k) = true
      · have hkeq : p.1 = k := by simpa using hk
        simp [aerase, hk]
        exact alookup_eq_none k rest (by rw [← hkeq]; exact hn1)
      · simp [aerase, hk, alookup]
        exact ih hn2

/-- C5 counterexample: subscribing a single listener at time 5 and then
unsubscribing it removes the registration bucket but leaves the activity
timestamp in place, contradicting the claim that both are removed. -/
theorem unsubscribe_keeps_timestamp_cex :
    alookup "c1"
      (unsubscribe "c1" 0 (subscribe 5 "c1" 0 ⟨[], []⟩).2).subscribers = none ∧
    alookup "c1"
      (unsubscribe "c1" 0 (subscribe 5 "c1" 0 ⟨[], []⟩).2).timestamps = some 5 := by
  decide

/-- C5 (amended): when `unsubscribe` removes the last remaining listener
registration for a correlation id, the id's registration bucket is
removed from the subscriber map, but the id's activity timestamp is NOT
removed — the timestamp map is left entirely unchanged (it is cleaned up
only by `notify_subscribers` pruning or the stale-subscriber sweep). -/
theorem unsubscribe_last_listener (cid : String) (qid : Nat)
    (items : List TraceEntry) (b : Broadcast)
    (hb : alookup cid b.subscribers = some [⟨qid, items⟩])
    (hnd : (b.subscribers.map Prod.fst).Nodup) :
    alookup cid (unsubscribe cid qid b).subscribers = none ∧
    (unsubscribe cid qid b).timestamps = b.timestamps := by
  simp only [unsubscribe, hb]
  simp [removeFirstQ]
  exact alookup_aerase_self cid b.subscribers hnd

/-- C5 witness: the amended statement at a concrete one-listener state. -/
theorem unsubscribe_last_listener_witness :
    alookup "c1"
      (unsubscribe "c1" 7
        ⟨[("c1", [⟨7, []⟩])], [("c1", 5)]⟩).subscribers = none ∧
    (unsubscribe "c1" 7
        ⟨[("c1", [⟨7, []⟩])], [("c1", 5)]⟩).timestamps = [("c1", 5)] :=
  unsubscribe_last_listener "c1" 7 [] ⟨[("c1", [⟨7, []⟩])], [("c1", 5)]⟩
    (by decide) (by decide)

/-! ## Claim C6 — rejected `/recent` call and state mutation -/

/-- Every `/recent` call — accepted or rejected — leaves the state with
the call time appended to the rate window, the request counter bumped,
and the stored rows untouched. -/
theorem get_recent_traces_snd (now : Int) (limit : Nat) (source : Option String)
    (s : RecentState) :
    (get_recent_traces now limit source s).2
      = ⟨s.window ++ [now], s.recent_requests + 1, s.rows⟩ := by
  simp only [get_recent_traces]
  by_cases h : (List.countP (fun t => decide (now - t < 60)) (s.window ++ [now])) > 30
  · rw [if_pos h]
  · rw [if_neg h]

/-- A `/recent` call is rejected exactly when, after appending the call
time, more than 30 window entries are younger than 60 seconds. -/
theorem get_recent_traces_fst_none (now : Int) (limit : Nat)
    (source : Option String) (s : RecentState) :
    (get_recent_traces now limit source s).1 = none ↔
      (List.countP (fun t => decide (now - t < 60)) (s.window ++ [now])) > 30 := by
  simp only [get_recent_traces]
  by_cases h : (List.countP (fun t => decide (now - t < 60)) (s.window ++ [now])) > 30
  · rw [if_pos h]; simpa using h
  · rw [if_neg h]; simpa using h

/-- C6 counterexample: with 30 requests already in the rate window, the
next call is rejected — yet the rate window has grown by one entry and
the request counter has been incremented, contradicting "no state
mutation". -/
theorem recent_reject_mutates_cex :
    (get_recent_traces 0 200 none ⟨List.replicate 30 0, 4, []⟩).1 = none ∧
    (get_recent_traces 0 200 none ⟨List.replicate 30 0, 4, []⟩).2.window
      ≠ List.replicate 30 (0 : Int) ∧
    (get_recent_traces 0 200 none ⟨List.replicate 30 0, 4, []⟩).2.recent_requests
      ≠ 4 := by
  decide

/-- C6 (amended): a `/recent` request rejected by the rate limit leaves
the stored traces untouched, but it does mutate the rate bookkeeping:
the call's timestamp has been appended to the rate window and the
request counter has been incremented before the limit check fires. -/
theorem recent_reject_effects (now : Int) (limit : Nat) (source : Option String)
    (s : RecentState)
    (hrej : (get_recent_traces now limit source s).1 = none) :
    (get_recent_traces now limit source s).2.rows = s.rows ∧
    (get_recent_traces now limit source s).2.window = s.window ++ [now] ∧
    (get_recent_traces now limit source s).2.recent_requests
      = s.recent_requests + 1 := by
  refine ⟨?_, ?_, ?_⟩ <;> rw [get_recent_traces_snd]

/-- C6 witness: the amended statement at the counterexample's state. -/
theorem recent_reject_effects_witness :
    (get_recent_traces 0 200 none ⟨List.replicate 30 0, 4, []⟩).2.rows = [] ∧
    (get_recent_traces 0 200 none ⟨List.replicate 30 0, 4, []⟩).2.window
      = List.replicate 30 (0 : Int) ++ [0] ∧
    (get_recent_traces 0 200 none ⟨List.replicate 30 0, 4, []⟩).2.recent_requests
      = 4 + 1 :=
  recent_reject_effects 0 200 none ⟨List.replicate 30 0, 4, []⟩ (by decide)

/-! ## Claim C7 — the 30th call is accepted, the 31st rejected -/

/-- Running a batch of `/recent` calls appends every call time to the
rate window (accepted or not) and never changes the stored rows. -/
theorem runRecent_window (ts : List Int) :
    ∀ s : RecentState,
      (runRecent ts s).window = s.window ++ ts ∧ (runRecent ts s).rows = s.rows := by
  induction ts with
  | nil => intro s; simp [runRecent]
  | cons t rest ih =>
      intro s
      have hstep : runRecent (t :: rest) s
          = runRecent rest (get_recent_traces t 200 none s).2 := by
        simp [runRecent]
      rw [hstep, get_recent_traces_snd]
      obtain ⟨hw, hr⟩ := ih ⟨s.window ++ [t], s.recent_requests + 1, s.rows⟩
      constructor
      · rw [hw]; simp
      · rw [hr]

/-- C7: starting from an empty rate window, after 29 `/recent` calls all
within the rolling 60-second window, the 30th call is accepted (returns a
page) and the 31st call within that window is rejected with the
rate-limit failure (returns `none`). -/
theorem recent_rate_limit_30_31 (ts : List Int) (t30 t31 : Int)
    (rows : List Row)
    (hlen : ts.length = 29)
    (hle : ∀ t ∈ ts, t ≤ t30) (h3031 : t30 ≤ t31)
    (hwin : ∀ t ∈ ts, t31 - t < 60) :
    (get_recent_traces t30 200 none (runRecent ts ⟨[], 0, rows⟩)).1 ≠ none ∧
    (get_recent_traces t31 200 none
      (get_recent_traces t30 200 none (runRecent ts ⟨[], 0, rows⟩)).2).1 = none := by
  obtain ⟨hw, _⟩ := runRecent_window ts ⟨[], 0, rows⟩
  have hwts : (runRecent ts ⟨[], 0, rows⟩).window = ts := by simpa using hw
  have hhead : ∃ t0, t0 ∈ ts := by
    cases ts with
    | nil => simp at hlen
    | cons a rest => exact ⟨a, by simp⟩
  obtain ⟨t0, ht0⟩ := hhead
  have h30all : ∀ t ∈ ts ++ [t30], t30 - t < 60 := by
    intro t ht
    rcases List.mem_append.1 ht with h | h
    · have h1 := hwin t h
      have h2 := hle t h
      omega
    · simp at h
      omega
  have h31all : ∀ t ∈ (ts ++ [t30]) ++ [t31], t31 - t < 60 := by
    intro t ht
    rcases List.mem_append.1 ht with h | h
    · rcases List.mem_append.1 h with h2 | h2
      · exact hwin t h2
      · simp at h2
        have ha := hle t0 ht0
        have hb := hwin t0 ht0
        omega
    · simp at h
      omega
  have hcnt30 : List.countP (fun u => decide (t30 - u < 60))
      ((runRecent ts ⟨[], 0, rows⟩).window ++ [t30]) = 30 := by
    rw [hwts]
    rw [List.countP_eq_length.2 (by intro u hu; simpa using h30all u hu)]
    simp [hlen]
  have hacc : ¬ (List.countP (fun u => decide (t30 - u < 60))
      ((runRecent ts ⟨[], 0, rows⟩).window ++ [t30]) > 30) := by
    rw [hcnt30]; omega
  refine ⟨?_, ?_⟩
  · rw [Ne, get_recent_traces_fst_none]
    exact hacc
  · rw [get_recent_traces_fst_none]
    rw [get_recent_traces_snd]
    show List.countP _ (((runRecent ts ⟨[], 0, rows⟩).window ++ [t30]) ++ [t31]) > 30
    rw [hwts]
    rw [List.countP_eq_length.2
      (by intro u hu; simpa using h31all u (by simpa using hu))]
    simp [hlen]

/-- C7 witness: 29 instantaneous calls, then the 30th accepted and the
31st rejected, all at time 0. -/
theorem recent_rate_limit_30_31_witness :
    (get_recent_traces 0 200 none
      (runRecent (List.replicate 29 0) ⟨[], 0, []⟩)).1 ≠ none ∧
    (get_recent_traces 0 200 none
      (get_recent_traces 0 200 none
        (runRecent (List.replicate 29 0) ⟨[], 0, []⟩)).2).1 = none :=
  recent_rate_limit_30_31 (List.replicate 29 0) 0 0 [] (by decide)
    (by decide) (by decide) (by decide)

/-! ## Claim C8 — notify fan-out, isolation, and dead-listener pruning -/

/-- Removing a queue identity skips a head with a different identity. -/
theorem removeFirstQ_cons_ne (qid : Nat) (q : Queue) (acc : List Queue)
    (h : q.qid ≠ qid) :
    removeFirstQ qid (q :: acc) = q :: removeFirstQ qid acc := by
  simp [removeFirstQ, h]

/-- Removing a queue identity drops a matching head. -/
theorem removeFirstQ_cons_self (q : Queue) (acc : List Queue) :
    removeFirstQ q.qid (q :: acc) = acc := by
  simp [removeFirstQ]

/-- Folding dead-queue removals over a list whose head matches none of
the dead identities leaves the head in place. -/
theorem remFold_cons (ds : List Queue) (q : Queue) :
    ∀ acc : List Queue, (∀ d ∈ ds, d.qid ≠ q.qid) →
      ds.foldl (fun a d => removeFirstQ d.qid a) (q :: acc)
        = q :: ds.foldl (fun a d => removeFirstQ d.qid a) acc := by
  induction ds with
  | nil => intro acc _; rfl
  | cons d ds ih =>
      intro acc h
      simp only [List.foldl_cons]
      rw [removeFirstQ_cons_ne d.qid q acc (Ne.symm (h d (by simp)))]
      exact ih (removeFirstQ d.qid acc) (fun x hx => h x (by simp [hx]))

/-- The bucket transform keeps a live head with the entry appended. -/
theorem filterMap_upd_cons_live (trace : TraceEntry) (q : Queue) (rest : List Queue)
    (hlive : q.items.length < QUEUE_MAXSIZE) :
    (q :: rest).filterMap (fun q =>
        if q.items.length < QUEUE_MAXSIZE then
          some { q with items := q.items ++ [trace] } else none)
      = { q with items := q.items ++ [trace] } ::
        rest.filterMap (fun q =>
          if q.items.length < QUEUE_MAXSIZE then
            some { q with items := q.items ++ [trace] } else none) :=
  List.filterMap_cons_some (by simp [hlive])

/-- The bucket transform drops a saturated head. -/
theorem filterMap_upd_cons_dead (trace : TraceEntry) (q : Queue) (rest : List Queue)
    (hdead : ¬ (q.items.length < QUEUE_MAXSIZE)) :
    (q :: rest).filterMap (fun q =>
        if q.items.length < QUEUE_MAXSIZE then
          some { q with items := q.items ++ [trace] } else none)
      = rest.filterMap (fun q =>
          if q.items.length < QUEUE_MAXSIZE then
            some { q with items := q.items ++ [trace] } else none) :=
  List.filterMap_cons_none (by simp [hdead])

/-- The enqueue-then-prune pass of `notify_subscribers`, on a bucket with
distinct queue identities, equals keeping exactly the non-saturated
queues with the entry appended. -/
theorem notifyBucket_eq (trace : TraceEntry) :
    ∀ qs : List Queue, (qs.map Queue.qid).Nodup →
      (qs.filter (fun q => !(decide (q.items.length < QUEUE_MAXSIZE)))).foldl
          (fun acc q => removeFirstQ q.qid acc)
          (qs.map (fun q =>
            if q.items.length < QUEUE_MAXSIZE then
              { q with items := q.items ++ [trace] } else q))
        = qs.filterMap (fun q =>
            if q.items.length < QUEUE_MAXSIZE then
              some { q with items := q.items ++ [trace] } else none) := by
  intro qs
  induction qs with
  | nil => intro _; rfl
  | cons q rest ih =>
      intro hnd
      rw [List.map_cons] at hnd
      obtain ⟨hq, hrest⟩ := List.nodup_cons.1 hnd
      by_cases hlive : q.items.length < QUEUE_MAXSIZE
      · rw [List.filter_cons_of_neg (by simp [hlive]), List.map_cons, if_pos hlive]
        rw [remFold_cons _ _ _ ?hne]
        case hne =>
          intro d hd he
          have hmem : d.qid ∈ rest.map Queue.qid :=
            List.mem_map.2 ⟨d, List.mem_of_mem_filter hd, rfl⟩
          -- the pruned head keeps the queue's identity, so no dead id hits it
          simp only [] at he
          exact hq (he ▸ hmem)
        rw [ih hrest, ← filterMap_upd_cons_live trace q rest hlive]
      · rw [List.filter_cons_of_pos (by simp [hlive]), List.map_cons, if_neg hlive]
        simp only [List.foldl_cons]
        rw [removeFirstQ_cons_self]
        rw [ih hrest, ← filterMap_upd_cons_dead trace q rest hlive]

/-- Nothing in the pruned bucket carries an identity absent from the
original bucket. -/
theorem find_notifyBucket_absent (trace : TraceEntry) (qid : Nat) :
    ∀ qs : List Queue, qid ∉ qs.map Queue.qid →
      (qs.filterMap (fun q =>
          if q.items.length < QUEUE_MAXSIZE then
            some { q with items := q.items ++ [trace] } else none)).find?
        (fun x => x.qid == qid) = none := by
  intro qs
  induction qs with
  | nil => intro _; rfl
  | cons q rest ih =>
      intro h
      have hne : q.qid ≠ qid := fun he => h (by simp [he])
      have hr : qid ∉ rest.map Queue.qid := fun hm => h (by simp [hm])
      by_cases hlive : q.items.length < QUEUE_MAXSIZE
      · rw [filterMap_upd_cons_live trace q rest hlive]
        rw [List.find?_cons_of_neg _ (by simp [hne])]
        exact ih hr
      · rw [filterMap_upd_cons_dead trace q rest hlive]
        exact ih hr

/-- In the pruned bucket, a live listener's queue is found with the entry
appended. -/
theorem find_notifyBucket_live (trace : TraceEntry) :
    ∀ qs : List Queue, (qs.map Queue.qid).Nodup →
      ∀ q ∈ qs, q.items.length < QUEUE_MAXSIZE →
        (qs.filterMap (fun q =>
            if q.items.length < QUEUE_MAXSIZE then
              some { q with items := q.items ++ [trace] } else none)).find?
          (fun x => x.qid == q.qid)
          = some { q with items := q.items ++ [trace] } := by
  intro qs
  induction qs with
  | nil => intro _ q hq; exact absurd hq (by simp)
  | cons p rest ih =>
      intro hnd q hq hlive
      rw [List.map_cons] at hnd
      obtain ⟨hp, hrest⟩ := List.nodup_cons.1 hnd
      rcases List.mem_cons.1 hq with he | hm
      · subst he
        rw [filterMap_upd_cons_live trace q rest hlive]
        rw [List.find?_cons_of_pos _ (by simp)]
      · have hne : p.qid ≠ q.qid := by
          intro he
          exact hp (he ▸ List.mem_map.2 ⟨q, hm, rfl⟩)
        by_cases hplive : p.items.length < QUEUE_MAXSIZE
        · rw [filterMap_upd_cons_live trace p rest hplive]
          rw [List.find?_cons_of_neg _ (by simp [hne])]
          exact ih hrest q hm hlive
        · rw [filterMap_upd_cons_dead trace p rest hplive]
          exact ih hrest q hm hlive

/-- In the pruned bucket, a saturated listener's queue is gone. -/
theorem find_notifyBucket_dead (trace : TraceEntry) :
    ∀ qs : List Queue, (qs.map Queue.qid).Nodup →
      ∀ q ∈ qs, ¬ (q.items.length < QUEUE_MAXSIZE) →
        (qs.filterMap (fun q =>
            if q.items.length < QUEUE_MAXSIZE then
              some { q with items := q.items ++ [trace] } else none)).find?
          (fun x => x.qid == q.qid) = none := by
  intro qs
  induction qs with
  | nil => intro _ q hq; exact absurd hq (by simp)
  | cons p rest ih =>
      intro hnd q hq hdead
      rw [List.map_cons] at hnd
      obtain ⟨hp, hrest⟩ := List.nodup_cons.1 hnd
      rcases List.mem_cons.1 hq with he | hm
      · subst he
        rw [filterMap_upd_cons_dead trace q rest hdead]
        exact find_notifyBucket_absent trace q.qid rest hp
      · have hne : p.qid ≠ q.qid := by
          intro he
          exact hp (he ▸ List.mem_map.2 ⟨q, hm, rfl⟩)
        by_cases hplive : p.items.length < QUEUE_MAXSIZE
        · rw [filterMap_upd_cons_live trace p rest hplive]
          rw [List.find?_cons_of_neg _ (by simp [hne])]
          exact ih hrest q hm hdead
        · rw [filterMap_upd_cons_dead trace p rest hplive]
          exact ih hrest q hm hdead

/-- Lookup after assignment of the same key yields the new value. -/
theorem alookup_aset_self {α : Type} (k : String) (v : α) (m : List (String × α)) :
    alookup k (aset k v m) = some v := by
  induction m with
  | nil => simp [aset, alookup]
  | cons p rest ih =>
      by_cases hk : (p.1 == k) = true
      · simp [aset, hk, alookup]
      · simp [aset, hk, alookup]
        exact ih

/-- Lookup of a different key is unchanged by an assignment. -/
theorem alookup_aset_ne {α : Type} (k k2 : String) (v : α) (m : List (String × α))
    (h : k2 ≠ k) : alookup k2 (aset k v m) = alookup k2 m := by
  induction m with
  | nil =>
      simp [aset, alookup]
      exact fun he => h he.symm
  | cons p rest ih =>
      by_cases hk : (p.1 == k) = true
      · have hkeq : p.1 = k := by simpa using hk
        have h1 : (k == k2) = false := by
          simp
          exact fun he => h he.symm
        have h2 : (p.1 == k2) = false := by
          simp [hkeq]
          exact fun he => h he.symm
        simp [aset, hk, alookup, h1, h2]
      · simp only [aset, hk, if_false]
        by_cases hk2 : (p.1 == k2) = true
        · simp [alookup, hk2]
        · simp [alookup, hk2]
          exact ih

/-- Lookup of a different key is unchanged by an erasure. -/
theorem alookup_aerase_ne {α : Type} (k k2 : String) (m : List (String × α))
    (h : k2 ≠ k) : alookup k2 (aerase k m) = alookup k2 m := by
  induction m with
  | nil => rfl
  | cons p rest ih =>
      by_cases hk : (p.1 == k) = true
      · have hkeq : p.1 = k := by simpa using hk
        have h2 : (p.1 == k2) = false := by
          simp [hkeq]
          exact fun he => h he.symm
        simp [aerase, hk, alookup, h2]
      · by_cases hk2 : (p.1 == k2) = true
        · simp [aerase, hk, alookup, hk2]
        · simp [aerase, hk, alookup, hk2]
          exact ih

/-- The bucket contents after a fan-out pass: exactly the non-saturated
queues, each with the entry appended. -/
def updBucket (trace : TraceEntry) (qs : List Queue) : List Queue :=
  qs.filterMap (fun q =>
    if q.items.length < QUEUE_MAXSIZE then
      some { q with items := q.items ++ [trace] } else none)

/-- C8: for every `notify_subscribers` of an inserted entry over a
well-formed subscriber map (distinct correlation keys, distinct queue
identities in the entry's bucket): every listener on the entry's
correlation id with spare queue capacity receives the entry appended to
its queue; buckets of every other correlation id are untouched; and every
listener whose queue is saturated is dropped from the registration set
after the fan-out pass (while the live listeners still receive the
entry, per the first part). -/
theorem notify_fanout (trace : TraceEntry) (b : Broadcast) (qs : List Queue)
    (hb : alookup trace.correlation_id b.subscribers = some qs)
    (hnd : (qs.map Queue.qid).Nodup)
    (hk : (b.subscribers.map Prod.fst).Nodup) :
    (∀ q ∈ qs, q.items.length < QUEUE_MAXSIZE →
      findQueue (notify_subscribers trace b) trace.correlation_id q.qid
        = some { q with items := q.items ++ [trace] }) ∧
    (∀ cid2, cid2 ≠ trace.correlation_id →
      alookup cid2 (notify_subscribers trace b).subscribers
        = alookup cid2 b.subscribers) ∧
    (∀ q ∈ qs, ¬ (q.items.length < QUEUE_MAXSIZE) →
      findQueue (notify_subscribers trace b) trace.correlation_id q.qid = none) := by
  have hN : notify_subscribers trace b =
      (if (updBucket trace qs).isEmpty then
        (⟨aerase trace.correlation_id b.subscribers,
          aerase trace.correlation_id b.timestamps⟩ : Broadcast)
      else
        { b with
          subscribers := aset trace.correlation_id (updBucket trace qs) b.subscribers }) := by
    simp only [notify_subscribers, hb]
    rw [notifyBucket_eq trace qs hnd]
    rfl
  refine ⟨?_, ?_, ?_⟩
  · intro q hq hlive
    have hmem : ({ q with items := q.items ++ [trace] } : Queue)
        ∈ updBucket trace qs := by
      simp only [updBucket]
      exact List.mem_filterMap.2 ⟨q, hq, by simp [hlive]⟩
    by_cases hemp : (updBucket trace qs).isEmpty = true
    · rw [List.isEmpty_iff] at hemp
      rw [hemp] at hmem
      exact absurd hmem (by simp)
    · rw [hN, if_neg hemp]
      simp only [findQueue, alookup_aset_self]
      simp only [updBucket]
      exact find_notifyBucket_live trace qs hnd q hq hlive
  · intro cid2 hne
    rw [hN]
    by_cases hemp : (updBucket trace qs).isEmpty = true
    · rw [if_pos hemp]
      exact alookup_aerase_ne trace.correlation_id cid2 b.subscribers hne
    · rw [if_neg hemp]
      exact alookup_aset_ne trace.correlation_id cid2 _ b.subscribers hne
  · intro q hq hdead
    by_cases hemp : (updBucket trace qs).isEmpty = true
    · rw [hN, if_pos hemp]
      simp only [findQueue]
      rw [alookup_aerase_self trace.correlation_id b.subscribers hk]
    · rw [hN, if_neg hemp]
      simp only [findQueue, alookup_aset_self]
      simp only [updBucket]
      exact find_notifyBucket_dead trace qs hnd q hq hdead

/-- C8 witness: two live listeners and one saturated listener on `"c1"`,
one listener on `"c2"`; the entry reaches both live `"c1"` queues, the
`"c2"` bucket is untouched, and the saturated listener is pruned. -/
theorem notify_fanout_witness :
    findQueue (notify_subscribers
        ⟨"WK", "c1", 1, "a", "->", "RPC", "/e", none, "h", none⟩
        ⟨[("c1", [⟨0, []⟩, ⟨1, []⟩,
            ⟨2, List.replicate 100
              ⟨"WK", "c1", 1, "a", "->", "RPC", "/e", none, "h", none⟩⟩]),
          ("c2", [⟨3, []⟩])],
         [("c1", 0), ("c2", 0)]⟩) "c1" 0
      = some ⟨0, [⟨"WK", "c1", 1, "a", "->", "RPC", "/e", none, "h", none⟩]⟩ ∧
    alookup "c2" (notify_subscribers
        ⟨"WK", "c1", 1, "a", "->", "RPC", "/e", none, "h", none⟩
        ⟨[("c1", [⟨0, []⟩, ⟨1, []⟩,
            ⟨2, List.replicate 100
              ⟨"WK", "c1", 1, "a", "->", "RPC", "/e", none, "h", none⟩⟩]),
          ("c2", [⟨3, []⟩])],
         [("c1", 0), ("c2", 0)]⟩).subscribers
      = alookup "c2"
          ([("c1", [⟨0, []⟩, ⟨1, []⟩,
              ⟨2, List.replicate 100
                ⟨"WK", "c1", 1, "a", "->", "RPC", "/e", none, "h", none⟩⟩]),
            ("c2", [⟨3, []⟩])] : List (String × List Queue)) ∧
    findQueue (notify_subscribers
        ⟨"WK", "c1", 1, "a", "->", "RPC", "/e", none, "h", none⟩
        ⟨[("c1", [⟨0, []⟩, ⟨1, []⟩,
            ⟨2, List.replicate 100
              ⟨"WK", "c1", 1, "a", "->", "RPC", "/e", none, "h", none⟩⟩]),
          ("c2", [⟨3, []⟩])],
         [("c1", 0), ("c2", 0)]⟩) "c1" 2 = none :=
  ⟨(notify_fanout
      ⟨"WK", "c1", 1, "a", "->", "RPC", "/e", none, "h", none⟩
      ⟨[("c1", [⟨0, []⟩, ⟨1, []⟩,
          ⟨2, List.replicate 100
            ⟨"WK", "c1", 1, "a", "->", "RPC", "/e", none, "h", none⟩⟩]),
        ("c2", [⟨3, []⟩])],
       [("c1", 0), ("c2", 0)]⟩
      [⟨0, []⟩, ⟨1, []⟩,
        ⟨2, List.replicate 100
          ⟨"WK", "c1", 1, "a", "->", "RPC", "/e", none, "h", none⟩⟩]
      rfl (by decide) (by decide)).1 ⟨0, []⟩ (by simp) (by decide),
   (notify_fanout
      ⟨"WK", "c1", 1, "a", "->", "RPC", "/e", none, "h", none⟩
      ⟨[("c1", [⟨0, []⟩, ⟨1, []⟩,
          ⟨2, List.replicate 100
            ⟨"WK", "c1", 1, "a", "->", "RPC", "/e", none, "h", none⟩⟩]),
        ("c2", [⟨3, []⟩])],
       [("c1", 0), ("c2", 0)]⟩
      [⟨0, []⟩, ⟨1, []⟩,
        ⟨2, List.replicate 100
          ⟨"WK", "c1", 1, "a", "->", "RPC", "/e", none, "h", none⟩⟩]
      rfl (by decide) (by decide)).2.1 "c2" (by decide),
   (notify_fanout
      ⟨"WK", "c1", 1, "a", "->", "RPC", "/e", none, "h", none⟩
      ⟨[("c1", [⟨0, []⟩, ⟨1, []⟩,
          ⟨2, List.replicate 100
            ⟨"WK", "c1", 1, "a", "->", "RPC", "/e", none, "h", none⟩⟩]),
        ("c2", [⟨3, []⟩])],
       [("c1", 0), ("c2", 0)]⟩
      [⟨0, []⟩, ⟨1, []⟩,
        ⟨2, List.replicate 100
          ⟨"WK", "c1", 1, "a", "->", "RPC", "/e", none, "h", none⟩⟩]
      rfl (by decide) (by decide)).2.2
     ⟨2, List.replicate 100
       ⟨"WK", "c1", 1, "a", "->", "RPC", "/e", none, "h", none⟩⟩
     (by simp) (by decide)⟩

/-! ## Claim C9 — stream cleanup and the terminal marker -/

/-- The polling loop never emits the terminal marker itself. -/
theorem streamLoop_no_terminal :
    ∀ events : List StreamEvent, StreamMsg.terminal ∉ (streamLoop events).1 := by
  intro events
  induction events with
  | nil => simp [streamLoop]
  | cons e rest ih =>
      cases e with
      | item t => simpa [streamLoop] using ih
      | poll_timeout => simpa [streamLoop] using ih
      | fault => simp [streamLoop]
      | disconnect => simp [streamLoop]

/-- C9 counterexample: a client disconnect right after subscription ends
the stream with no emitted terminal marker (the emitted sequence is
empty), contradicting the claim that every exit path ends with the
marker. The handler did unsubscribe (that half of the claim holds). -/
theorem stream_disconnect_no_terminal_cex :
    (stream_traces [] "c1" 0 0 [StreamEvent.disconnect] ⟨[], []⟩).1.getLast?
      ≠ some StreamMsg.terminal ∧
    (stream_traces [] "c1" 0 0 [StreamEvent.disconnect] ⟨[], []⟩).2.1
      = unsubscribe "c1" 0 (subscribe 0 "c1" 0 ⟨[], []⟩).2 := by
  exact ⟨by decide, rfl⟩

/-- C9 (amended): on every exit path the stream handler unsubscribes its
queue (the `finally` block); but the terminal marker ends the emitted
sequence only on a clean exit (timeout deadline reached) — on a fault or
client disconnect the emitted sequence does NOT end with the terminal
marker. -/
theorem stream_cleanup_and_terminal (existing : List TraceEntry)
    (correlation_id : String) (qid : Nat) (now : Int)
    (events : List StreamEvent) (b : Broadcast) :
    (stream_traces existing correlation_id qid now events b).2.1
      = unsubscribe correlation_id qid
          (subscribe now correlation_id qid b).2 ∧
    ((stream_traces existing correlation_id qid now events b).2.2 = true →
      (stream_traces existing correlation_id qid now events b).1.getLast?
        = some StreamMsg.terminal) ∧
    ((stream_traces existing correlation_id qid now events b).2.2 = false →
      (stream_traces existing correlation_id qid now events b).1.getLast?
        ≠ some StreamMsg.terminal) := by
  refine ⟨rfl, ?_, ?_⟩
  · intro hclean
    simp only [stream_traces] at hclean ⊢
    rw [hclean, if_pos rfl, List.getLast?_concat]
  · intro hdirty
    simp only [stream_traces] at hdirty ⊢
    rw [hdirty, if_neg (by simp), List.append_nil]
    intro hlast
    have hmem : StreamMsg.terminal
        ∈ existing.map StreamMsg.data ++ (streamLoop events).1 :=
      List.mem_of_mem_getLast? (by simp [Option.mem_def, hlast])
    rcases List.mem_append.1 hmem with h | h
    · rcases List.mem_map.1 h with ⟨x, _, hx⟩
      exact absurd hx (by simp)
    · exact streamLoop_no_terminal events h

/-- C9 witness: a clean one-keepalive stream ends with the terminal
marker and unsubscribes; a faulting stream unsubscribes but ends without
the marker. -/
theorem stream_cleanup_and_terminal_witness :
    (stream_traces [] "c1" 0 0 [StreamEvent.poll_timeout] ⟨[], []⟩).2.1
      = unsubscribe "c1" 0 (subscribe 0 "c1" 0 ⟨[], []⟩).2 ∧
    (stream_traces [] "c1" 0 0 [StreamEvent.poll_timeout] ⟨[], []⟩).1.getLast?
      = some StreamMsg.terminal ∧
    (stream_traces [] "c1" 0 0 [StreamEvent.fault] ⟨[], []⟩).1.getLast?
      ≠ some StreamMsg.terminal :=
  ⟨(stream_cleanup_and_terminal [] "c1" 0 0 [StreamEvent.poll_timeout]
      ⟨[], []⟩).1,
   (stream_cleanup_and_terminal [] "c1" 0 0 [StreamEvent.poll_timeout]
      ⟨[], []⟩).2.1 rfl,
   (stream_cleanup_and_terminal [] "c1" 0 0 [StreamEvent.fault]
      ⟨[], []⟩).2.2 rfl⟩

/-! ## Claim C10 — frame effect of single versus batch ingest -/

/-- Total number of timestamps across all per-source ingest windows. -/
def windowSize (m : List (String × List Int)) : Nat :=
  (m.map (fun p => p.2.length)).sum

/-- Sum of all per-source lifetime totals. -/
def totalsSum (m : List (String × Nat)) : Nat :=
  (m.map Prod.snd).sum

/-- Appending one timestamp to a source's window grows the overall
window count by exactly one. -/
theorem windowSize_aset (k : String) (now : Int) :
    ∀ m : List (String × List Int),
      windowSize (aset k ((alookup k m).getD [] ++ [now]) m) = windowSize m + 1 := by
  intro m
  induction m with
  | nil => simp [windowSize, aset, alookup]
  | cons p rest ih =>
      by_cases hk : (p.1 == k) = true
      · simp [aset, alookup, hk, windowSize]
        omega
      · have hkf : (p.1 == k) = false := by simpa using hk
        simp [aset, alookup, hkf, windowSize] at ih ⊢
        omega

/-- Bumping one source's lifetime total grows the overall sum by one. -/
theorem totalsSum_aset (k : String) :
    ∀ m : List (String × Nat),
      totalsSum (aset k ((alookup k m).getD 0 + 1) m) = totalsSum m + 1 := by
  intro m
  induction m with
  | nil => simp [totalsSum, aset, alookup]
  | cons p rest ih =>
      by_cases hk : (p.1 == k) = true
      · simp [aset, alookup, hk, totalsSum]
        omega
      · have hkf : (p.1 == k) = false := by simpa using hk
        simp [aset, alookup, hkf, totalsSum] at ih ⊢
        omega

/-- Invariant of the batch-ingest loop: the batch counters are untouched,
the inserted count grows by at most one per trace, and the source
windows and totals grow by exactly one per trace. -/
theorem ingestFold_invariant (now : Int) :
    ∀ (ts : List TraceEntry) (s : Server) (n : Nat),
      (ts.foldl (ingestStep now) (s, n)).1.stats.ingest_total
          = s.stats.ingest_total ∧
      (ts.foldl (ingestStep now) (s, n)).1.stats.ingest_duplicates
          = s.stats.ingest_duplicates ∧
      n ≤ (ts.foldl (ingestStep now) (s, n)).2 ∧
      (ts.foldl (ingestStep now) (s, n)).2 ≤ n + ts.length ∧
      windowSize (ts.foldl (ingestStep now) (s, n)).1.source_ingest_window
          = windowSize s.source_ingest_window + ts.length ∧
      totalsSum (ts.foldl (ingestStep now) (s, n)).1.source_ingest_totals
          = totalsSum s.source_ingest_totals + ts.length := by
  intro ts
  induction ts with
  | nil => intro s n; simp
  | cons t rest ih =>
      intro s n
      rw [List.foldl_cons]
      obtain ⟨i1, i2, i3, i4, i5, i6⟩ :=
        ih (ingestStep now (s, n) t).1 (ingestStep now (s, n) t).2
      simp only [Prod.mk.eta] at i1 i2 i3 i4 i5 i6
      have h1 : (ingestStep now (s, n) t).1.stats.ingest_total
          = s.stats.ingest_total := by
        simp [ingestStep]
      have h2 : (ingestStep now (s, n) t).1.stats.ingest_duplicates
          = s.stats.ingest_duplicates := by
        simp [ingestStep]
      have h3 : n ≤ (ingestStep now (s, n) t).2 ∧
          (ingestStep now (s, n) t).2 ≤ n + 1 := by
        simp only [ingestStep]
        by_cases hi : (insert_trace now t s.rows).inserted = true <;> simp [hi]
      have h5 : windowSize (ingestStep now (s, n) t).1.source_ingest_window
          = windowSize s.source_ingest_window + 1 := by
        simp only [ingestStep]
        exact windowSize_aset t.source_id now s.source_ingest_window
      have h6 : totalsSum (ingestStep now (s, n) t).1.source_ingest_totals
          = totalsSum s.source_ingest_totals + 1 := by
        simp only [ingestStep]
        exact totalsSum_aset t.source_id s.source_ingest_totals
      refine ⟨by rw [i1, h1], by rw [i2, h2], ?_, ?_, ?_, ?_⟩
      · omega
      · simp only [List.length_cons]; omega
      · rw [i5, h5]; simp [List.length_cons]; omega
      · rw [i6, h6]; simp [List.length_cons]; omega

/-- C10: ingesting one entry through the single-entry handler leaves the
per-source ingest windows, the per-source lifetime totals, and the
cumulative `ingest_total` / `ingest_duplicates` counters unchanged; the
batch handler updates all of them — each batch adds its length to the
combined `ingest_total + ingest_duplicates`, one window timestamp per
trace, and one lifetime count per trace. -/
theorem ingest_frame_effect (now : Int) (t : TraceEntry) (ts : List TraceEntry)
    (s : Server) :
    ((ingest_single_trace now t s).1.source_ingest_window
        = s.source_ingest_window ∧
     (ingest_single_trace now t s).1.source_ingest_totals
        = s.source_ingest_totals ∧
     (ingest_single_trace now t s).1.stats.ingest_total
        = s.stats.ingest_total ∧
     (ingest_single_trace now t s).1.stats.ingest_duplicates
        = s.stats.ingest_duplicates) ∧
    ((ingest_traces now ts s).1.stats.ingest_total
        + (ingest_traces now ts s).1.stats.ingest_duplicates
      = s.stats.ingest_total + s.stats.ingest_duplicates + ts.length ∧
     windowSize (ingest_traces now ts s).1.source_ingest_window
        = windowSize s.source_ingest_window + ts.length ∧
     totalsSum (ingest_traces now ts s).1.source_ingest_totals
        = totalsSum s.source_ingest_totals + ts.length) := by
  obtain ⟨i1, i2, i3, i4, i5, i6⟩ := ingestFold_invariant now ts s 0
  refine ⟨⟨rfl, rfl, rfl, rfl⟩, ?_, ?_, ?_⟩
  · simp only [ingest_traces]
    rw [i1, i2]
    omega
  · simp only [ingest_traces]
    exact i5
  · simp only [ingest_traces]
    exact i6

end TraceHub
